import Mathlib

/-!
Verification development for the SportsBetAI repository (NBA prop prediction
pipeline: Next.js frontend under `frontend/`, Flask backend documented in
`instructions.md` / `backend/README.md`).

The frontend pages (`frontend/app/page.tsx`, `frontend/app/player/page.tsx`)
are embedded directly from their TypeScript source.  The backend prediction
core (FeatureBuilder, CalibratedPredictor, PredictionOrchestrator,
RateGovernor and the Flask routes) is not present in the repository source
tree, so those components are modelled from the specification, as flagged in
the doc comment of each such definition.

Numeric conventions: JavaScript / Python numbers are modelled as `ℚ`;
dates and timestamps as `Nat` (days / seconds since an epoch); machine
floating point plays no role in the properties proved here.
-/

namespace SportsBetAI

/-! ## Frontend: homepage (`frontend/app/page.tsx`) -/

/-- The `PropBet` interface of `frontend/app/page.tsx` (lines 9-19). -/
structure PropBet where
  player_id : Nat
  full_name : String
  line : ℚ
  prob_over : ℚ
  confidence_interval : ℚ
  home_team : String
  away_team : String
  game_time : Option String
  last_updated : String
deriving DecidableEq

/-- The hard-coded mock array built in the `!response.ok` branch of
`fetchProps` (`frontend/app/page.tsx` lines 56-112). -/
def mockDataHttp : List PropBet :=
  [ ⟨1, "LeBron James", 25.5, 0.72, 7.5, "LAL", "GSW", some "19:30", "2025-04-18 10:00:00"⟩,
    ⟨9, "Giannis Antetokounmpo", 30.5, 0.73, 6.9, "MIL", "IND", some "17:30", "2025-04-18 10:00:00"⟩,
    ⟨7, "Luka Doncic", 32.5, 0.68, 6.5, "DAL", "OKC", some "19:00", "2025-04-18 10:00:00"⟩,
    ⟨2, "Stephen Curry", 28.5, 0.65, 6.8, "LAL", "GSW", some "19:30", "2025-04-18 10:00:00"⟩,
    ⟨4, "Nikola Jokic", 26.5, 0.61, 7.1, "PHX", "DEN", some "20:00", "2025-04-18 10:00:00"⟩ ]

/-- The hard-coded mock array built in the `catch` branch of `fetchProps`
(`frontend/app/page.tsx` lines 124-180). -/
def mockDataNetwork : List PropBet :=
  [ ⟨1, "LeBron James", 25.5, 0.72, 7.5, "LAL", "GSW", some "19:30", "2025-04-18 10:00:00"⟩,
    ⟨9, "Giannis Antetokounmpo", 30.5, 0.73, 6.9, "MIL", "IND", some "17:30", "2025-04-18 10:00:00"⟩,
    ⟨7, "Luka Doncic", 32.5, 0.68, 6.5, "DAL", "OKC", some "19:00", "2025-04-18 10:00:00"⟩,
    ⟨2, "Stephen Curry", 28.5, 0.65, 6.8, "LAL", "GSW", some "19:30", "2025-04-18 10:00:00"⟩,
    ⟨4, "Nikola Jokic", 26.5, 0.61, 7.1, "PHX", "DEN", some "20:00", "2025-04-18 10:00:00"⟩ ]

/-- Possible outcomes of the `fetch` call inside `fetchProps`. -/
inductive FetchOutcome where
  | ok (data : List PropBet)
  | httpError (status : Nat)
  | networkError
deriving DecidableEq

/-- The component state touched by `fetchProps`: the `props`, `error` and
`loading` `useState` hooks of `Home` (`frontend/app/page.tsx` lines 22-24). -/
structure HomeState where
  props : List PropBet
  error : Option String
  loading : Bool
deriving DecidableEq

/-- `fetchProps` (`frontend/app/page.tsx` lines 41-186) as a function of the
fetch outcome.  It sets `loading=true, error=null` on entry; on a non-ok
response it stores `mockDataHttp` and returns, on a thrown network error it
stores `mockDataNetwork`; `setError` is never called with a non-null value,
and the `finally` block sets `loading=false`. -/
def fetchProps : FetchOutcome → HomeState
  | .ok data => ⟨data, none, false⟩
  | .httpError _ => ⟨mockDataHttp, none, false⟩
  | .networkError => ⟨mockDataNetwork, none, false⟩

/-- The four mutually exclusive render branches of `Home`
(`frontend/app/page.tsx` lines 232-301). -/
inductive HomeView where
  | loadingView
  | errorView (msg : String)
  | emptyView
  | table (rows : List PropBet)
deriving DecidableEq

/-- The render logic of `Home`: `loading` shows the spinner, `error &&
!loading` shows the error box, `!loading && !error && props.length === 0`
the empty state, and otherwise the results table
(`frontend/app/page.tsx` lines 232-301). -/
def renderHome (s : HomeState) : HomeView :=
  if s.loading then .loadingView
  else
    match s.error with
    | some m => .errorView m
    | none => if s.props.length = 0 then .emptyView else .table s.props

/-- ECMAScript `Number.prototype.toFixed(1)` on an exact rational: pick the
integer `n` with `n / 10` closest to `x`, ties towards the larger `n`
(so `n = ⌊10·x + 1/2⌋`), and print it with one decimal digit. -/
def jsToFixed1 (x : ℚ) : String :=
  let n : Int := ⌊x * 10 + 1 / 2⌋
  let sign := if n < 0 then "-" else ""
  let m := n.natAbs
  sign ++ toString (m / 10) ++ "." ++ toString (m % 10)

/-- `getProbabilityBadgeClass` of the homepage
(`frontend/app/page.tsx` lines 194-198). -/
def homeGetProbabilityBadgeClass (prob : ℚ) : String :=
  if prob ≥ 0.7 then "bg-emerald-100 text-emerald-800 border-emerald-500"
  else if prob ≥ 0.5 then "bg-amber-100 text-amber-800 border-amber-500"
  else "bg-rose-100 text-rose-800 border-rose-500"

/-- `formatProbability` of the homepage
(`frontend/app/page.tsx` lines 201-203): `(prob * 100).toFixed(1) + "%"`. -/
def homeFormatProbability (prob : ℚ) : String :=
  jsToFixed1 (prob * 100) ++ "%"

/-! ## Frontend: player page (`frontend/app/player/page.tsx`) -/

/-- `formatProbability` of the player page
(`frontend/app/player/page.tsx` lines 93-95). -/
def playerFormatProbability (prob : ℚ) : String :=
  jsToFixed1 (prob * 100) ++ "%"

/-- `getProbabilityBadgeClass` of the player page
(`frontend/app/player/page.tsx` lines 98-102). -/
def playerGetProbabilityBadgeClass (prob : ℚ) : String :=
  if prob ≥ 0.7 then "bg-emerald-100 text-emerald-800 border-emerald-500"
  else if prob ≥ 0.5 then "bg-amber-100 text-amber-800 border-amber-500"
  else "bg-rose-100 text-rose-800 border-rose-500"

/-! ## Backend data model

Modelled from the spec: the Flask backend (`backend/app/...` in the file
structure of `instructions.md`) is not part of the repository source tree —
only its README and design documents are — so the data model of spec §3 and
the PostgreSQL schema of `instructions.md` §1.3 are embedded here from the
spec's words. -/

/-- Modelled from the spec: the `players` table / Player entity (spec §3). -/
structure Player where
  id : Nat
  nbaApiId : Nat
  fullName : String
  team : String
deriving DecidableEq

/-- Modelled from the spec: the `games` table / Game entity (spec §3). -/
structure Game where
  id : Nat
  gameDate : Nat
  homeTeam : String
  awayTeam : String
deriving DecidableEq

/-- Modelled from the spec: the `player_stats` table / PlayerStat entity
(spec §3), restricted to the fields the FeatureBuilder reads. -/
structure PlayerStat where
  playerId : Nat
  gameDate : Nat
  points : ℚ
  minutes : ℚ
  opponent : String
  isHome : Bool
deriving DecidableEq

/-- Modelled from the spec: the `prop_lines` table / PropLine entity
(spec §3). -/
structure PropLine where
  id : Nat
  playerId : Nat
  gameDate : Nat
  line : ℚ
  sportsbook : String
  fetchedAt : Nat
deriving DecidableEq

/-- Modelled from the spec: a ModelVersion (spec §3): ordered
`feature_columns`, classifier weights, and calibration parameters.  A
calibration bucket `(lo, hi, v)` maps raw scores in `[lo, hi]` to the
calibrated probability `v`; the confidence interval is derived from the
bucket's width (spec §4.3). -/
structure ModelVersion where
  versionId : Nat
  featureColumns : List String
  weights : List ℚ
  calibBuckets : List (ℚ × ℚ × ℚ)
  createdAt : Nat
deriving DecidableEq

/-- Modelled from the spec: the `predictions` table / Prediction entity
(spec §3), unique on `propLineId`. -/
structure Prediction where
  id : Nat
  propLineId : Nat
  probOver : ℚ
  confidenceInterval : ℚ
  modelVersionId : Nat
  generatedAt : Nat
deriving DecidableEq

/-! ## FeatureBuilder

Modelled from the spec: `backend` FeatureBuilder (spec §4.1) is absent from
the source tree; the algorithm below follows spec §4.1 step by step.  The
rolling standard deviation is carried as its square (the variance) so that
the embedding stays inside `ℚ`; the window/no-padding properties are
unaffected by the final square root. -/

/-- Modelled from the spec: FeatureBuilder failure modes (spec §4.1, §7). -/
inductive BuildError where
  | insufficientData
  | schemaMismatch
deriving DecidableEq

/-- Date-descending comparison on stat rows ("ordered by date descending",
spec §4.1). -/
def statDateDesc (a b : PlayerStat) : Prop := b.gameDate ≤ a.gameDate

instance : DecidableRel statDateDesc := fun _ _ => Nat.decLe _ _

instance : IsTotal PlayerStat statDateDesc :=
  ⟨fun a b => Nat.le_total b.gameDate a.gameDate⟩

instance : IsTrans PlayerStat statDateDesc :=
  ⟨fun _ _ _ hab hbc => le_trans hbc hab⟩

/-- Modelled from the spec: "Pull the player's PlayerStat rows strictly
before `game_date`, ordered by date descending" (spec §4.1). -/
def priorStats (stats : List PlayerStat) (pid gameDate : Nat) : List PlayerStat :=
  (stats.filter fun r => r.playerId = pid ∧ r.gameDate < gameDate).insertionSort statDateDesc

/-- Modelled from the spec: "take the last 5 (fewer if unavailable — never
pad with zeros)" (spec §4.1). -/
def rollingWindow (stats : List PlayerStat) (pid gameDate : Nat) : List PlayerStat :=
  (priorStats stats pid gameDate).take 5

/-- Modelled from the spec: league-average defensive rating used as the
documented imputation policy when the opponent's rating is absent
(spec §4.1). -/
def leagueAvgRating : ℚ := 110

/-- Modelled from the spec: opponent season defensive rating lookup with
league-average imputation (spec §4.1). -/
def oppDefRating (ratings : List (String × ℚ)) (team : String) : ℚ :=
  match ratings.find? (fun p => p.1 == team) with
  | some p => p.2
  | none => leagueAvgRating

/-- The six features of spec §4.1 (`sample_size` is itself a feature; the
std is carried as the variance, see the section comment). -/
structure FeatureSet where
  mean : ℚ
  variance : ℚ
  sampleSize : ℚ
  oppRating : ℚ
  daysRest : ℚ
  homeFlag : ℚ
deriving DecidableEq

/-- Modelled from the spec: the fixed column order the builder produces,
to be checked against the active ModelVersion's `feature_columns`
(spec §4.1). -/
def builderColumns : List String :=
  ["points_rolling_mean", "points_rolling_var", "sample_size",
   "opp_def_rating", "days_of_rest", "home_vs_away"]

/-- The builder's output values, in `builderColumns` order. -/
def featureValues (fs : FeatureSet) : List ℚ :=
  [fs.mean, fs.variance, fs.sampleSize, fs.oppRating, fs.daysRest, fs.homeFlag]

/-- Modelled from the spec: compute the raw feature set (spec §4.1): rolling
mean/variance over the window, `InsufficientDataError` iff zero prior games,
opponent rating with league-average imputation, `days_of_rest` clipped at
10, and the binary home flag. -/
def featuresOf (stats : List PlayerStat) (ratings : List (String × ℚ))
    (pid gameDate : Nat) (opp : String) (isHome : Bool) :
    Except BuildError FeatureSet :=
  match rollingWindow stats pid gameDate with
  | [] => .error .insufficientData
  | r :: rest =>
    let w := r :: rest
    let n : ℚ := (w.length : ℚ)
    let mean := (w.map (·.points)).sum / n
    let variance := (w.map fun x => (x.points - mean) ^ 2).sum / n
    .ok ⟨mean, variance, (w.length : ℚ), oppDefRating ratings opp,
      (min 10 (gameDate - r.gameDate) : Nat), if isHome then 1 else 0⟩

/-- Modelled from the spec: `FeatureBuilder.build` (spec §4.1): compute the
features, then assemble the ordered vector strictly following the active
ModelVersion's `feature_columns`; a column-name or order mismatch is a fatal
`FeatureSchemaMismatchError`, never a silent reorder. -/
def build (stats : List PlayerStat) (ratings : List (String × ℚ))
    (mv : ModelVersion) (pid gameDate : Nat) (opp : String) (isHome : Bool) :
    Except BuildError (List ℚ) :=
  (featuresOf stats ratings pid gameDate opp isHome).bind fun fs =>
    if builderColumns = mv.featureColumns then .ok (featureValues fs)
    else .error .schemaMismatch

/-! ## CalibratedPredictor

Modelled from the spec: `CalibratedPredictor.score` (spec §4.3) is absent
from the source tree.  The raw classifier score is clamped into `[0,1]`, the
calibration map assigns each raw-score bucket its calibrated probability,
and the confidence interval is half the local bucket width as a percentage,
clamped into `[0,50]` ("never negative, never exceeding 50"). -/

/-- Clamp a rational into `[0,1]`. -/
def clamp01 (x : ℚ) : ℚ := max 0 (min 1 x)

/-- Dot product of weight and feature vectors (the linear classifier body;
any classifier works for the contract, spec §1 non-goals). -/
def dotProd : List ℚ → List ℚ → ℚ
  | [], _ => 0
  | _, [] => 0
  | a :: as, b :: bs => a * b + dotProd as bs

/-- Modelled from the spec: "Raw classifier output is a score in `[0,1]`"
(spec §4.3). -/
def rawScore (mv : ModelVersion) (fv : List ℚ) : ℚ := clamp01 (dotProd mv.weights fv)

/-- Modelled from the spec: pass the raw score through the stored
calibration map; the confidence interval is derived from the bucket's local
width, symmetric ±, clamped into `[0,50]` (spec §4.3). -/
def calibrate (buckets : List (ℚ × ℚ × ℚ)) (raw : ℚ) : ℚ × ℚ :=
  match buckets.find? (fun b => decide (b.1 ≤ raw ∧ raw ≤ b.2.1)) with
  | some b => (clamp01 b.2.2, max 0 (min 50 ((b.2.1 - b.1) * 100 / 2)))
  | none => (raw, 0)

/-- Modelled from the spec: `CalibratedPredictor.score(feature_vector) →
(prob_over, confidence_interval)` (spec §4.3). -/
def score (mv : ModelVersion) (fv : List ℚ) : ℚ × ℚ :=
  calibrate mv.calibBuckets (rawScore mv fv)

/-! ## PredictionOrchestrator

Modelled from the spec: the orchestrator (spec §4.4) is absent from the
source tree.  `getOrGenerate` is the sequential state-machine step (PropLine
check, cache check, generate, upsert); the per-key generation lock of spec
§4.4/§5 is modelled separately as the interleaved transition system `CStep`
below. -/

/-- The backing store the serving pipeline reads and the orchestrator
writes (spec §3). -/
structure Store where
  players : List Player
  games : List Game
  stats : List PlayerStat
  ratings : List (String × ℚ)
  propLines : List PropLine
  predictions : List Prediction
  model : ModelVersion
deriving DecidableEq

/-- Find the PropLine for a `(player_id, game_date)` key (spec §4.4 step 1). -/
def findPropLine (s : Store) (pid d : Nat) : Option PropLine :=
  s.propLines.find? fun pl => pl.playerId == pid && pl.gameDate == d

/-- Find the cached Prediction for a PropLine id (spec §4.4 step 2). -/
def findPrediction (preds : List Prediction) (plId : Nat) : Option Prediction :=
  preds.find? fun p => p.propLineId == plId

/-- Modelled from the spec: "upsert the Prediction row keyed by the unique
prop_line_id constraint (an upsert, not insert-then-check)" (spec §4.4
step 4): replace the existing row for the key, else append. -/
def upsertPrediction (preds : List Prediction) (p : Prediction) : List Prediction :=
  if preds.any fun q => q.propLineId == p.propLineId then
    preds.map fun q => if q.propLineId == p.propLineId then p else q
  else preds ++ [p]

/-- Orchestrator failure modes surfaced to callers (spec §4.4, §7). -/
inductive OrchError where
  | propNotFound
  | insufficientData
  | schemaMismatch
deriving DecidableEq

/-- The game a team plays on a date (used for matchup context). -/
def gameFor (s : Store) (team : String) (d : Nat) : Option Game :=
  s.games.find? fun g => g.gameDate == d && (g.homeTeam == team || g.awayTeam == team)

/-- Modelled from the spec: the winner's generation path — invoke
FeatureBuilder, then CalibratedPredictor, and produce the Prediction row
(spec §4.4 step 4); build errors propagate (spec §4.4 step 5). -/
def generatePrediction (s : Store) (pl : PropLine) (now : Nat) : Except OrchError Prediction :=
  let team := match s.players.find? (fun p => p.id == pl.playerId) with
    | some p => p.team
    | none => ""
  let ctx := match gameFor s team pl.gameDate with
    | some g => if g.homeTeam == team then (g.awayTeam, true) else (g.homeTeam, false)
    | none => ("", false)
  match build s.stats s.ratings s.model pl.playerId pl.gameDate ctx.1 ctx.2 with
  | .error .insufficientData => .error .insufficientData
  | .error .schemaMismatch => .error .schemaMismatch
  | .ok fv => .ok ⟨pl.id, pl.id, (score s.model fv).1, (score s.model fv).2, s.model.versionId, now⟩

/-- Modelled from the spec: `get_or_generate(player_id, date)` (spec §4.4):
no PropLine → `PropNotFoundError`; cached Prediction and no force flag →
cache hit; otherwise generate and upsert.  The third component counts
FeatureBuilder/CalibratedPredictor invocations performed by the call. -/
def getOrGenerate (s : Store) (pid d : Nat) (force : Bool) (now : Nat) :
    Except OrchError Prediction × Store × Nat :=
  match findPropLine s pid d with
  | none => (.error .propNotFound, s, 0)
  | some pl =>
    match findPrediction s.predictions pl.id, force with
    | some pred, false => (.ok pred, s, 0)
    | _, _ =>
      match generatePrediction s pl now with
      | .error e => (.error e, s, 1)
      | .ok pred => (.ok pred, { s with predictions := upsertPrediction s.predictions pred }, 1)

/-- Modelled from the spec: manual regeneration bypasses the cache-hit check
but uses the same generation path (spec §4.4). -/
def regenerate (s : Store) (pid d : Nat) (now : Nat) :
    Except OrchError Prediction × Store × Nat :=
  getOrGenerate s pid d true now

/-- The Prediction-table invariant: at most one row per PropLine (spec §3). -/
def atMostOnePerLine (preds : List Prediction) : Prop :=
  ∀ plId, (preds.filter fun p => p.propLineId == plId).length ≤ 1

/-! ### Concurrent generation, modelled as an interleaved transition system

Modelled from the spec: N callers race `get_or_generate` for one
never-before-seen key (spec §4.4 step 3, §5).  Each caller checks the cache
(`cacheHit`), or acquires the free exclusive lock (`acquire`); the lock
holder re-checks the cache under the lock and either builds and upserts
(`buildRun`, counting one FeatureBuilder/CalibratedPredictor invocation) or
returns the winner's row without building (`skipped`).  Losers waiting on
the cache take `cacheHit` once the row is `READY`. -/

/-- Program counter of one concurrent caller. -/
inductive PC where
  | start
  | locked
  | done
deriving DecidableEq

/-- Shared state of the n-caller race: prediction rows, the number of
builds performed, the per-key lock, and each caller's program counter. -/
structure Conc (n : Nat) where
  preds : List Prediction
  builds : Nat
  lock : Option (Fin n)
  pcs : Fin n → PC

/-- Whether a Prediction row exists for the key (`READY`). -/
def hasRow (preds : List Prediction) (plId : Nat) : Bool :=
  (findPrediction preds plId).isSome

/-- One interleaving step of the concurrent `get_or_generate` race. -/
inductive CStep (n : Nat) (plId : Nat) (newPred : Prediction) : Conc n → Conc n → Prop where
  | cacheHit (s : Conc n) (i : Fin n) :
      s.pcs i = .start → hasRow s.preds plId = true →
      CStep n plId newPred s { s with pcs := Function.update s.pcs i .done }
  | acquire (s : Conc n) (i : Fin n) :
      s.pcs i = .start → s.lock = none →
      CStep n plId newPred s { s with lock := some i, pcs := Function.update s.pcs i .locked }
  | buildRun (s : Conc n) (i : Fin n) :
      s.pcs i = .locked → s.lock = some i → hasRow s.preds plId = false →
      CStep n plId newPred s { s with preds := upsertPrediction s.preds newPred, builds := s.builds + 1, lock := none, pcs := Function.update s.pcs i .done }
  | skipped (s : Conc n) (i : Fin n) :
      s.pcs i = .locked → s.lock = some i → hasRow s.preds plId = true →
      CStep n plId newPred s { s with lock := none, pcs := Function.update s.pcs i .done }

/-- Initial race state: the stored rows, no builds, free lock, all callers
at `start`. -/
def concInit (n : Nat) (preds0 : List Prediction) : Conc n :=
  ⟨preds0, 0, none, fun _ => .start⟩

/-- Race invariant: the key's row exists iff exactly one build ran, the
number of rows for the key equals the build count, and a finished caller
implies the row exists. -/
def ConcInv (plId : Nat) {n : Nat} (s : Conc n) : Prop :=
  (hasRow s.preds plId = true ↔ s.builds = 1) ∧
  (s.preds.filter fun p => p.propLineId == plId).length = s.builds ∧
  (∀ i, s.pcs i = .done → hasRow s.preds plId = true)

/-! ## RateGovernor

Modelled from the spec: the admission operation of spec §4.5 is absent
from the source tree.  Independent `(client_key, route)` counters over a
fixed hourly window; route budgets follow `instructions.md` §3.4 (listing
100/h, lookup 150/h, search 150/h, manual generate 20/h); over-budget
requests are rejected with `remaining`/`reset_at` metadata, not queued. -/

/-- The four rate-limited serving routes (spec §4.5). -/
inductive Route where
  | listing
  | lookup
  | search
  | generate
deriving DecidableEq

/-- Modelled from the spec: route-specific hourly budgets
(`instructions.md` §3.4). -/
def budgetOf : Route → Nat
  | .listing => 100
  | .lookup => 150
  | .search => 150
  | .generate => 20

/-- The fixed window length, one hour in seconds. -/
def windowLen : Nat := 3600

/-- Governor state: one `(windowStart, count)` counter per
`(client_key, route)` pair. -/
structure GovState where
  counters : List ((String × Route) × (Nat × Nat))
deriving DecidableEq

/-- The `admitRequest` result: `allowed`, machine-readable `remaining` quota and
`reset_at` time (spec §4.5). -/
structure AdmitResult where
  allowed : Bool
  remaining : Nat
  resetAt : Nat
deriving DecidableEq

/-- Read a pair's counter. -/
def lookupCounter (st : GovState) (c : String) (r : Route) : Option (Nat × Nat) :=
  (st.counters.find? fun e => e.1 = (c, r)).map (·.2)

/-- Write a pair's counter (update in place, else append). -/
def setCounter (st : GovState) (c : String) (r : Route) (v : Nat × Nat) : GovState :=
  if st.counters.any fun e => e.1 = (c, r) then
    ⟨st.counters.map fun e => if e.1 = (c, r) then ((c, r), v) else e⟩
  else ⟨st.counters ++ [((c, r), v)]⟩

/-- Modelled from the spec: the admission check over a fixed hourly
window: an expired window resets the counter; under budget the request is
let through and counted; over budget it is rejected (not queued) with
`remaining = 0` and the window's reset time (spec §4.5). -/
def admitRequest (st : GovState) (c : String) (r : Route) (now : Nat) : AdmitResult × GovState :=
  let wc := match lookupCounter st c r with
    | some (ws, cnt) => if now < ws + windowLen then (ws, cnt) else (now, 0)
    | none => (now, 0)
  if wc.2 < budgetOf r then
    (⟨true, budgetOf r - (wc.2 + 1), wc.1 + windowLen⟩, setCounter st c r (wc.1, wc.2 + 1))
  else
    (⟨false, 0, wc.1 + windowLen⟩, st)

/-- Fresh governor state. -/
def govInit : GovState := ⟨[]⟩

/-- The governor state after `k` admitRequest calls for one `(client, route)` pair,
all at time `t` (within one window). -/
def stateAfter (c : String) (r : Route) (t : Nat) : Nat → GovState
  | 0 => govInit
  | k + 1 => (admitRequest (stateAfter c r t k) c r t).2

/-! ## Listing endpoint

Modelled from the spec: `GET /api/props?date=...` (spec §6) is absent from
the source tree: rows of the documented shape, sorted by `prob_over`
descending; when no predictions exist for the date, the orchestrator is
invoked for every PropLine on that date before the response is produced. -/

/-- The response row shape of `GET /api/props` (spec §6). -/
structure PropResponse where
  player_id : Nat
  full_name : String
  line : ℚ
  prob_over : ℚ
  confidence_interval : ℚ
  home_team : String
  away_team : String
  game_time : Option String
  last_updated : Nat
deriving DecidableEq

/-- Descending order on `prob_over` (spec §6: "sorted by prob_over
descending"). -/
def probDesc (a b : PropResponse) : Prop := b.prob_over ≤ a.prob_over

instance : DecidableRel probDesc := fun a b => Rat.instDecidableLe b.prob_over a.prob_over

instance : IsTotal PropResponse probDesc := ⟨fun a b => le_total b.prob_over a.prob_over⟩

instance : IsTrans PropResponse probDesc := ⟨fun _ _ _ hab hbc => le_trans hbc hab⟩

/-- The PropLines of a date. -/
def propLinesOn (s : Store) (d : Nat) : List PropLine :=
  s.propLines.filter fun pl => pl.gameDate == d

/-- The stored predictions for a date's PropLines. -/
def predictionsOn (s : Store) (d : Nat) : List Prediction :=
  (propLinesOn s d).filterMap fun pl => findPrediction s.predictions pl.id

/-- Invoke the orchestrator for every PropLine of the date (spec §6). -/
def generateAll (s : Store) (d now : Nat) : Store :=
  (propLinesOn s d).foldl (fun st pl => (getOrGenerate st pl.playerId pl.gameDate false now).2.1) s

/-- Assemble one response row from a PropLine and its stored prediction
(partial failures are omitted, spec §7). -/
def rowFor (s : Store) (pl : PropLine) : Option PropResponse :=
  (findPrediction s.predictions pl.id).map fun pred =>
    let name := match s.players.find? (fun p => p.id == pl.playerId) with
      | some p => p.fullName
      | none => ""
    let team := match s.players.find? (fun p => p.id == pl.playerId) with
      | some p => p.team
      | none => ""
    let g := gameFor s team pl.gameDate
    ⟨pl.playerId, name, pl.line, pred.probOver, pred.confidenceInterval,
      (g.map (·.homeTeam)).getD "", (g.map (·.awayTeam)).getD "",
      none, pred.generatedAt⟩

/-- Modelled from the spec: the listing endpoint body (spec §6).  Returns
the response rows sorted by `prob_over` descending, paired with the list of
PropLines for which the orchestrator was invoked. -/
def listProps (s : Store) (d now : Nat) : List PropResponse × List PropLine :=
  if predictionsOn s d = [] then
    let s2 := generateAll s d now
    (((propLinesOn s2 d).filterMap (rowFor s2)).insertionSort probDesc, propLinesOn s d)
  else
    (((propLinesOn s d).filterMap (rowFor s)).insertionSort probDesc, [])

/-! ## Player lookup: fuzzy name matching

Modelled from the spec: `GET /api/props/player?name=...` (spec §6, §9) is
absent from the source tree: normalized-string edit-distance match with a
fixed threshold and deterministic tie-break — exact match wins (distance 0),
then closest distance, then alphabetical on `full_name`. -/

/-- Split a lowered character list into whitespace-separated words
(accumulator-based). -/
def wordsAux : List Char → List Char → List (List Char)
  | [], acc => if acc = [] then [] else [acc.reverse]
  | ch :: rest, acc =>
    if ch.isWhitespace then
      (if acc = [] then wordsAux rest [] else acc.reverse :: wordsAux rest [])
    else wordsAux rest (ch :: acc)

/-- Join words with single spaces. -/
def joinWords : List (List Char) → List Char
  | [] => []
  | [w] => w
  | w :: ws => w ++ ' ' :: joinWords ws

/-- Modelled from the spec: case-insensitive whitespace normalization of a
player-name query (spec §6: "case-insensitive fuzzy match"; §8: lowercase
and extra whitespace resolve like the exact-cased name). -/
def normalizeName (s : String) : String :=
  String.mk (joinWords (wordsAux (s.toList.map Char.toLower) []))

/-- Levenshtein distance between two strings (unit costs). -/
def nameDist (a b : String) : Nat :=
  levenshtein Levenshtein.defaultCost a.toList b.toList

/-- Modelled from the spec: the defined fuzzy-match threshold (spec §9
requires some fixed documented threshold). -/
def fuzzyThreshold : Nat := 3

/-- The players whose normalized names are within the threshold of the
normalized query. -/
def playerMatches (players : List Player) (nq : String) : List Player :=
  players.filter fun p => nameDist nq (normalizeName p.fullName) ≤ fuzzyThreshold

/-- Tie-break key: lexicographic (distance, full_name) — exact match means
distance 0 and so beats every fuzzy match; then closest distance; then
alphabetical (spec §9). -/
def lookupKey (nq : String) (p : Player) : Lex (Nat × String) :=
  toLex (nameDist nq (normalizeName p.fullName), p.fullName)

/-- Lookup failure modes of the player endpoint (spec §6). -/
inductive LookupError where
  | playerNotFound
  | propNotFound
deriving DecidableEq

/-- Modelled from the spec: resolve a name query to the best-matching stored
player, or fail with `404 PlayerNotFoundError` when no player is within the
threshold (spec §6, §9). -/
def resolvePlayer (players : List Player) (q : String) : Except LookupError Player :=
  match (playerMatches players (normalizeName q)).argmin (lookupKey (normalizeName q)) with
  | some p => .ok p
  | none => .error .playerNotFound

/-! ## Concrete fixtures used by witness theorems -/

/-- A model version whose `feature_columns` match the builder's output. -/
def cwModel : ModelVersion := ⟨1, builderColumns, [], [], 0⟩

/-- A model version whose `feature_columns` mismatch the builder's output. -/
def c4Model : ModelVersion := ⟨2, ["wrong"], [], [], 0⟩

/-- Two prior stat rows for player 7 (dates 1 and 2, points 10 and 20). -/
def c3Stats : List PlayerStat :=
  [⟨7, 1, 10, 30, "BOS", true⟩, ⟨7, 2, 20, 30, "MIA", false⟩]

/-- The prediction row produced by the winning concurrent builder. -/
def cwPred : Prediction := ⟨1, 1, 0, 0, 0, 0⟩

/-- An empty store. -/
def cwStore : Store := ⟨[], [], [], [], [], [], cwModel⟩

/-- Race state after caller 0 acquires the lock. -/
def cwS1 : Conc 2 :=
  { concInit 2 [] with lock := some 0, pcs := Function.update (concInit 2 []).pcs 0 PC.locked }

/-- Race state after caller 0 builds, upserts and releases. -/
def cwS2 : Conc 2 :=
  { cwS1 with preds := upsertPrediction cwS1.preds cwPred, builds := cwS1.builds + 1, lock := none, pcs := Function.update cwS1.pcs 0 PC.done }

/-- Race state after caller 1 takes the cache hit. -/
def cwS3 : Conc 2 := { cwS2 with pcs := Function.update cwS2.pcs 1 PC.done }

/-- A prop line for player 7 on date 5. -/
def c5Line : PropLine := ⟨1, 7, 5, 32, "fanduel", 0⟩

/-- A stored prediction for that prop line. -/
def c5Pred : Prediction := ⟨1, 1, 1/2, 5, 1, 0⟩

/-- A store whose key (7, 5) is `READY`. -/
def c5Store : Store := ⟨[], [], [], [], [c5Line], [c5Pred], cwModel⟩

/-- A store with a prop line on date 5 but no predictions. -/
def c6Store : Store := ⟨[], [], [], [], [c5Line], [], cwModel⟩

/-- A two-player table for the lookup witness. -/
def c8Players : List Player :=
  [⟨1, 0, "LeBron James", "LAL"⟩, ⟨2, 0, "Stephen Curry", "GSW"⟩]

/-- The expected lookup result. -/
def c8Lebron : Player := ⟨1, 0, "LeBron James", "LAL"⟩

/-- C9: whenever the homepage's `fetchProps` receives a non-ok HTTP response
or a network error, it stores the fixed five-player hard-coded mock dataset
into `props` and never sets the `error` state, so the page renders the mock
predictions in the results table instead of the error UI; both failure
branches store the same dataset. -/
theorem c9_fetch_failure_renders_mock (status : Nat) :
    (fetchProps (.httpError status)).error = none ∧
    (fetchProps (.httpError status)).props = mockDataHttp ∧
    (fetchProps .networkError).error = none ∧
    (fetchProps .networkError).props = mockDataNetwork ∧
    mockDataHttp = mockDataNetwork ∧
    mockDataHttp.length = 5 ∧
    renderHome (fetchProps (.httpError status)) = .table mockDataHttp ∧
    renderHome (fetchProps .networkError) = .table mockDataHttp ∧
    (∀ msg, renderHome (fetchProps (.httpError status)) ≠ .errorView msg) ∧
    (∀ msg, renderHome (fetchProps .networkError) ≠ .errorView msg) := by
  refine ⟨rfl, rfl, rfl, rfl, rfl, rfl, rfl, rfl, ?_, ?_⟩ <;> intro msg h
  · exact HomeView.noConfusion
      (show HomeView.table mockDataHttp = .errorView msg from h)
  · exact HomeView.noConfusion
      (show HomeView.table mockDataNetwork = .errorView msg from h)

/-- C10: the probability-display helpers duplicated across the homepage and
the player page are extensionally equal, and the shared badge logic returns
the emerald class iff `p ≥ 0.7`, the amber class iff `0.5 ≤ p < 0.7`, and
the rose class otherwise. -/
theorem c10_duplicated_helpers_agree (p : ℚ) :
    homeFormatProbability p = playerFormatProbability p ∧
    homeGetProbabilityBadgeClass p = playerGetProbabilityBadgeClass p ∧
    (homeGetProbabilityBadgeClass p = "bg-emerald-100 text-emerald-800 border-emerald-500" ↔
      (0.7:ℚ) ≤ p) ∧
    (homeGetProbabilityBadgeClass p = "bg-amber-100 text-amber-800 border-amber-500" ↔
      (0.5:ℚ) ≤ p ∧ p < 0.7) ∧
    (homeGetProbabilityBadgeClass p = "bg-rose-100 text-rose-800 border-rose-500" ↔
      p < 0.5) := by
  refine ⟨rfl, rfl, ?_, ?_, ?_⟩ <;> unfold homeGetProbabilityBadgeClass <;>
      split_ifs with h1 h2
  · simp only [true_iff]; exact h1
  · have hne : ("bg-amber-100 text-amber-800 border-amber-500" : String) ≠
        "bg-emerald-100 text-emerald-800 border-emerald-500" := by decide
    simp only [hne, false_iff]
    exact h1
  · have hne : ("bg-rose-100 text-rose-800 border-rose-500" : String) ≠
        "bg-emerald-100 text-emerald-800 border-emerald-500" := by decide
    simp only [hne, false_iff]
    exact h1
  · have hne : ("bg-emerald-100 text-emerald-800 border-emerald-500" : String) ≠
        "bg-amber-100 text-amber-800 border-amber-500" := by decide
    simp only [hne, false_iff]
    rintro ⟨-, hlt⟩
    have : (0.5:ℚ) ≤ 0.7 := by norm_num
    linarith
  · simp only [true_iff]
    exact ⟨h2, lt_of_not_ge h1⟩
  · have hne : ("bg-rose-100 text-rose-800 border-rose-500" : String) ≠
        "bg-amber-100 text-amber-800 border-amber-500" := by decide
    simp only [hne, false_iff]
    rintro ⟨hle, -⟩
    exact h2 hle
  · have hne : ("bg-emerald-100 text-emerald-800 border-emerald-500" : String) ≠
        "bg-rose-100 text-rose-800 border-rose-500" := by decide
    simp only [hne, false_iff, not_lt]
    have : (0.5:ℚ) ≤ 0.7 := by norm_num
    linarith
  · have hne : ("bg-amber-100 text-amber-800 border-amber-500" : String) ≠
        "bg-rose-100 text-rose-800 border-rose-500" := by decide
    simp only [hne, false_iff, not_lt]
    exact h2
  · simp only [true_iff]
    exact lt_of_not_ge h2

/-! ## Helper lemmas -/

theorem upsert_key_preserved (p q : Prediction) :
    (if q.propLineId == p.propLineId then p else q).propLineId = q.propLineId := by
  split_ifs with h
  · exact (eq_of_beq h).symm
  · rfl

theorem length_filter_upsert_of_any (preds : List Prediction) (p : Prediction) (k : Nat)
    (h : (preds.any fun q => q.propLineId == p.propLineId) = true) :
    ((upsertPrediction preds p).filter fun q => q.propLineId == k).length =
      (preds.filter fun q => q.propLineId == k).length := by
  unfold upsertPrediction
  rw [if_pos h]
  have hpred : (fun q : Prediction => q.propLineId == k) ∘
      (fun q : Prediction => if q.propLineId == p.propLineId then p else q) =
      fun q : Prediction => q.propLineId == k := by
    funext q
    simp only [Function.comp_apply, upsert_key_preserved]
  rw [List.filter_map, hpred, List.length_map]

theorem atMostOne_upsert (preds : List Prediction) (p : Prediction)
    (h : atMostOnePerLine preds) : atMostOnePerLine (upsertPrediction preds p) := by
  intro k
  by_cases hany : (preds.any fun q => q.propLineId == p.propLineId) = true
  · rw [length_filter_upsert_of_any preds p k hany]
    exact h k
  · unfold upsertPrediction
    rw [if_neg hany]
    rw [List.filter_append, List.length_append]
    by_cases hk : (p.propLineId == k) = true
    · have hnil : (preds.filter fun q => q.propLineId == k) = [] := by
        rw [List.filter_eq_nil_iff]
        intro q hq hqk
        apply hany
        rw [List.any_eq_true]
        refine ⟨q, hq, ?_⟩
        have h1 : q.propLineId = k := eq_of_beq hqk
        have h2 : p.propLineId = k := eq_of_beq hk
        simp [h1, h2]
      rw [hnil]
      simp [List.filter, hk]
    · have : ([p].filter fun q => q.propLineId == k) = [] := by
        simp [List.filter, hk]
      rw [this]
      simp only [List.length_nil, Nat.add_zero]
      exact h k

theorem hasRow_true_iff (preds : List Prediction) (k : Nat) :
    hasRow preds k = true ↔ ∃ p ∈ preds, (p.propLineId == k) = true := by
  simp [hasRow, findPrediction, List.find?_isSome]

theorem filter_eq_nil_of_hasRow_false (preds : List Prediction) (k : Nat)
    (h : hasRow preds k = false) :
    (preds.filter fun p => p.propLineId == k) = [] := by
  rw [List.filter_eq_nil_iff]
  intro q hq hqk
  have := (hasRow_true_iff preds k).mpr ⟨q, hq, hqk⟩
  rw [h] at this
  exact Bool.noConfusion this

theorem concInv_step {n : Nat} {plId : Nat} {newPred : Prediction} {s t : Conc n}
    (hkey : newPred.propLineId = plId)
    (h : ConcInv plId s) (hst : CStep n plId newPred s t) : ConcInv plId t := by
  cases hst with
  | cacheHit i hpc hrow =>
    exact ⟨h.1, h.2.1, fun _ _ => hrow⟩
  | acquire i hpc hlock =>
    refine ⟨h.1, h.2.1, ?_⟩
    intro j hj
    have hj' : Function.update s.pcs i PC.locked j = PC.done := hj
    by_cases hji : j = i
    · subst hji
      rw [Function.update_same] at hj'
      exact PC.noConfusion hj'
    · rw [Function.update_noteq hji] at hj'
      exact h.2.2 j hj'
  | buildRun i hpc hlock hrow =>
    have hnil : (s.preds.filter fun p => p.propLineId == plId) = [] :=
      filter_eq_nil_of_hasRow_false s.preds plId hrow
    have hb0 : s.builds = 0 := by
      have := h.2.1
      rw [hnil] at this
      exact this.symm ▸ rfl
    have hany : (s.preds.any fun q => q.propLineId == newPred.propLineId) = false := by
      rw [List.any_eq_false]
      intro q hq hqk
      have := (hasRow_true_iff s.preds plId).mpr ⟨q, hq, by rw [hkey] at hqk; exact hqk⟩
      rw [hrow] at this
      exact Bool.noConfusion this
    have hup : upsertPrediction s.preds newPred = s.preds ++ [newPred] := by
      unfold upsertPrediction
      rw [if_neg (by rw [hany]; exact Bool.false_ne_true)]
    have hrownew : hasRow (upsertPrediction s.preds newPred) plId = true := by
      rw [hasRow_true_iff]
      exact ⟨newPred, by rw [hup]; exact List.mem_append_right _ (List.mem_singleton_self _),
        by rw [hkey]; exact beq_self_eq_true plId⟩
    refine ⟨?_, ?_, fun _ _ => hrownew⟩
    · simp only [hrownew, hb0, true_iff]
    · rw [hup, List.filter_append, hnil, List.nil_append, hb0]
      simp [List.filter, hkey, beq_self_eq_true]
  | skipped i hpc hlock hrow =>
    exact ⟨h.1, h.2.1, fun _ _ => hrow⟩

theorem concInv_reachable {n : Nat} {plId : Nat} {newPred : Prediction} {preds0 : List Prediction}
    (hkey : newPred.propLineId = plId) (h0 : hasRow preds0 plId = false) (s : Conc n)
    (hreach : Relation.ReflTransGen (CStep n plId newPred) (concInit n preds0) s) :
    ConcInv plId s := by
  induction hreach with
  | refl =>
    refine ⟨?_, ?_, ?_⟩
    · constructor
      · intro h
        rw [show (concInit n preds0).preds = preds0 from rfl, h0] at h
        exact Bool.noConfusion h
      · intro h
        exact Nat.noConfusion h
    · rw [show (concInit n preds0).preds = preds0 from rfl,
        filter_eq_nil_of_hasRow_false preds0 plId h0]
      rfl
    · intro i hi
      exact PC.noConfusion hi
  | tail h1 hstep ih =>
    exact concInv_step hkey ih hstep

theorem atMostOne_getOrGenerate (s : Store) (pid d : Nat) (force : Bool) (now : Nat)
    (h : atMostOnePerLine s.predictions) :
    atMostOnePerLine (getOrGenerate s pid d force now).2.1.predictions := by
  cases hpl : findPropLine s pid d with
  | none => simpa only [getOrGenerate, hpl] using h
  | some pl =>
    cases hfp : findPrediction s.predictions pl.id with
    | some pred =>
      cases force with
      | false => simpa only [getOrGenerate, hpl, hfp] using h
      | true =>
        cases hg : generatePrediction s pl now with
        | error e => simpa only [getOrGenerate, hpl, hfp, hg] using h
        | ok pred2 =>
          simpa only [getOrGenerate, hpl, hfp, hg] using
            atMostOne_upsert s.predictions pred2 h
    | none =>
      cases force with
      | false =>
        cases hg : generatePrediction s pl now with
        | error e => simpa only [getOrGenerate, hpl, hfp, hg] using h
        | ok pred2 =>
          simpa only [getOrGenerate, hpl, hfp, hg] using
            atMostOne_upsert s.predictions pred2 h
      | true =>
        cases hg : generatePrediction s pl now with
        | error e => simpa only [getOrGenerate, hpl, hfp, hg] using h
        | ok pred2 =>
          simpa only [getOrGenerate, hpl, hfp, hg] using
            atMostOne_upsert s.predictions pred2 h

theorem find?_map_set_same (c : String) (r : Route) (v : Nat × Nat) :
    ∀ l : List ((String × Route) × (Nat × Nat)),
      (l.any fun e => e.1 = (c, r)) = true →
      ((l.map fun e => if e.1 = (c, r) then ((c, r), v) else e).find?
        fun e => e.1 = (c, r)) = some ((c, r), v) := by
  intro l hl
  induction l with
  | nil => exact Bool.noConfusion hl
  | cons e tl ih =>
    by_cases he : e.1 = (c, r)
    · simp [List.find?, he]
    · have htl : (tl.any fun e => e.1 = (c, r)) = true := by
        simpa [List.any_cons, he] using hl
      simpa [List.find?, he] using ih htl

theorem find?_append_miss (c : String) (r : Route) (v : Nat × Nat) :
    ∀ l : List ((String × Route) × (Nat × Nat)),
      (l.any fun e => e.1 = (c, r)) = false →
      ((l ++ [((c, r), v)]).find? fun e => e.1 = (c, r)) = some ((c, r), v) := by
  intro l hl
  induction l with
  | nil => simp [List.find?]
  | cons e tl ih =>
    have he : ¬e.1 = (c, r) := by
      intro h
      rw [List.any_cons] at hl
      simp [h] at hl
    have htl : (tl.any fun e => e.1 = (c, r)) = false := by
      rw [List.any_cons] at hl
      simpa [he] using hl
    simpa [List.find?, he] using ih htl

theorem lookupCounter_setCounter_same (st : GovState) (c : String) (r : Route) (v : Nat × Nat) :
    lookupCounter (setCounter st c r v) c r = some v := by
  unfold lookupCounter setCounter
  by_cases hany : (st.counters.any fun e => e.1 = (c, r)) = true
  · rw [if_pos hany]
    rw [find?_map_set_same c r v st.counters hany]
    rfl
  · rw [if_neg hany]
    rw [find?_append_miss c r v st.counters (Bool.eq_false_iff.mpr hany)]
    rfl

theorem lookupCounter_setCounter_ne (st : GovState) (c : String) (r : Route) (v : Nat × Nat)
    (c' : String) (r' : Route) (h : (c', r') ≠ (c, r)) :
    lookupCounter (setCounter st c r v) c' r' = lookupCounter st c' r' := by
  have hnewkey : decide ((((c, r), v) : (String × Route) × (Nat × Nat)).1 = (c', r')) = false := by
    simp only [decide_eq_false_iff_not]
    exact fun hh => h hh.symm
  unfold lookupCounter setCounter
  by_cases hany : (st.counters.any fun e => e.1 = (c, r)) = true
  · rw [if_pos hany]
    congr 1
    induction st.counters with
    | nil => rfl
    | cons e tl ih =>
      simp only [List.map_cons, List.find?]
      by_cases he : e.1 = (c, r)
      · have hne2 : decide (e.1 = (c', r')) = false := by
          simp only [decide_eq_false_iff_not, he]
          exact fun hh => h hh.symm
        simp only [if_pos he, List.find?, hnewkey, hne2]
        exact ih
      · simp only [if_neg he, List.find?]
        cases hd : decide (e.1 = (c', r')) with
        | true => simp only [hd]
        | false =>
          simp only [hd]
          exact ih
  · rw [if_neg hany]
    congr 1
    induction st.counters with
    | nil =>
      simp only [List.nil_append, List.find?, hnewkey]
    | cons e tl ih =>
      simp only [List.cons_append, List.find?]
      cases hd : decide (e.1 = (c', r')) with
      | true => simp only [hd]
      | false =>
        simp only [hd]
        exact ih

theorem counter_stateAfter (c : String) (r : Route) (t : Nat) :
    ∀ k, k ≤ budgetOf r →
      lookupCounter (stateAfter c r t k) c r = if k = 0 then none else some (t, k) := by
  intro k
  induction k with
  | zero => intro _; rfl
  | succ k ih =>
    intro hk
    have hk' : k ≤ budgetOf r := Nat.le_of_succ_le hk
    have ihk := ih hk'
    by_cases h0 : k = 0
    · subst h0
      have hcnt : lookupCounter govInit c r = none := rfl
      simp only [stateAfter, admitRequest, hcnt]
      rw [if_pos (show 0 < budgetOf r from Nat.lt_of_lt_of_le (by norm_num) hk)]
      rw [lookupCounter_setCounter_same]
      simp
    · rw [if_neg h0] at ihk
      simp only [stateAfter, admitRequest, ihk]
      rw [if_pos (Nat.lt_add_of_pos_right (by decide : 0 < windowLen))]
      rw [if_pos (Nat.lt_of_succ_le hk)]
      rw [lookupCounter_setCounter_same]
      simp [Nat.succ_ne_zero]

theorem levenshtein_self_eq_zero (xs : List Char) :
    levenshtein Levenshtein.defaultCost xs xs = 0 := by
  induction xs with
  | nil => simp [levenshtein_nil_nil]
  | cons x tl ih =>
    rw [levenshtein_cons_cons]
    simp [ih, Levenshtein.defaultCost_substitute]

/-! ## Claim theorems (backend) -/

/-- C1: each PropLine has at most one Prediction row; the invariant is
preserved by `get_or_generate` and by explicit regeneration (which, via the
upsert, overwrites the existing row without growing the table); and in the
interleaved n-caller race for a never-before-seen key, every completed run
(all callers done) performed exactly one FeatureBuilder/CalibratedPredictor
invocation and left exactly one Prediction row for the key. -/
theorem c1_at_most_one_prediction_per_propline :
    (∀ (s : Store) (pid d : Nat) (force : Bool) (now : Nat), atMostOnePerLine s.predictions →
      atMostOnePerLine (getOrGenerate s pid d force now).2.1.predictions) ∧
    (∀ (s : Store) (pid d now : Nat), atMostOnePerLine s.predictions →
      atMostOnePerLine (regenerate s pid d now).2.1.predictions) ∧
    (∀ (preds : List Prediction) (p : Prediction),
      (preds.any fun q => q.propLineId == p.propLineId) = true →
      (upsertPrediction preds p).length = preds.length) ∧
    (∀ (n plId : Nat) (newPred : Prediction) (preds0 : List Prediction),
      newPred.propLineId = plId → hasRow preds0 plId = false →
      ∀ (s : Conc n), Relation.ReflTransGen (CStep n plId newPred) (concInit n preds0) s →
      (∀ j, s.pcs j = PC.done) → 0 < n →
      s.builds = 1 ∧ (s.preds.filter fun p => p.propLineId == plId).length = 1) := by
  refine ⟨fun s pid d force now h => atMostOne_getOrGenerate s pid d force now h,
    fun s pid d now h => atMostOne_getOrGenerate s pid d true now h, ?_, ?_⟩
  · intro preds p hany
    unfold upsertPrediction
    rw [if_pos hany, List.length_map]
  · intro n plId newPred preds0 hkey h0 s hreach hdone hn
    have hinv := concInv_reachable hkey h0 s hreach
    have hrow := hinv.2.2 ⟨0, hn⟩ (hdone ⟨0, hn⟩)
    have hb := hinv.1.mp hrow
    exact ⟨hb, by rw [hinv.2.1, hb]⟩

theorem c1_at_most_one_prediction_per_propline_witness :
    atMostOnePerLine (getOrGenerate cwStore 7 5 false 0).2.1.predictions ∧
    atMostOnePerLine (regenerate cwStore 7 5 0).2.1.predictions ∧
    (upsertPrediction [cwPred] cwPred).length = 1 ∧
    (∃ s : Conc 2, Relation.ReflTransGen (CStep 2 1 cwPred) (concInit 2 []) s ∧
      (∀ j, s.pcs j = PC.done) ∧ s.builds = 1 ∧
      (s.preds.filter fun p => p.propLineId == 1).length = 1) := by
  have hstep1 : CStep 2 1 cwPred (concInit 2 []) cwS1 :=
    CStep.acquire (concInit 2 []) 0 rfl rfl
  have hstep2 : CStep 2 1 cwPred cwS1 cwS2 :=
    CStep.buildRun cwS1 0 (by decide) rfl rfl
  have hstep3 : CStep 2 1 cwPred cwS2 cwS3 :=
    CStep.cacheHit cwS2 1 (by decide) rfl
  have htrace : Relation.ReflTransGen (CStep 2 1 cwPred) (concInit 2 []) cwS3 :=
    Relation.ReflTransGen.tail
      (Relation.ReflTransGen.tail
        (Relation.ReflTransGen.tail Relation.ReflTransGen.refl hstep1) hstep2) hstep3
  have hdone : ∀ j : Fin 2, cwS3.pcs j = PC.done := by decide
  have hconc := c1_at_most_one_prediction_per_propline.2.2.2 2 1 cwPred [] rfl rfl cwS3
    htrace hdone (by decide)
  refine ⟨c1_at_most_one_prediction_per_propline.1 cwStore 7 5 false 0 ?_,
    c1_at_most_one_prediction_per_propline.2.1 cwStore 7 5 0 ?_,
    c1_at_most_one_prediction_per_propline.2.2.1 [cwPred] cwPred (by decide),
    cwS3, htrace, hdone, hconc.1, hconc.2⟩
  · intro k
    simp [cwStore, List.filter]
  · intro k
    simp [cwStore, List.filter]

/-- C2: for every model version and feature vector, `score` returns
`prob_over ∈ [0,1]` and `confidence_interval ∈ [0,50]`. -/
theorem c2_score_bounds (mv : ModelVersion) (fv : List ℚ) :
    0 ≤ (score mv fv).1 ∧ (score mv fv).1 ≤ 1 ∧
    0 ≤ (score mv fv).2 ∧ (score mv fv).2 ≤ 50 := by
  have hclamp : ∀ x : ℚ, 0 ≤ clamp01 x ∧ clamp01 x ≤ 1 := by
    intro x
    constructor
    · exact le_max_left 0 _
    · exact max_le (by norm_num) (min_le_left 1 x)
  unfold score calibrate
  cases hfind : mv.calibBuckets.find?
      (fun b => decide (b.1 ≤ rawScore mv fv ∧ rawScore mv fv ≤ b.2.1)) with
  | none =>
    simp only
    exact ⟨(hclamp _).1, (hclamp _).2, le_refl 0, by norm_num⟩
  | some b =>
    simp only
    refine ⟨(hclamp _).1, (hclamp _).2, le_max_left 0 _, ?_⟩
    exact max_le (by norm_num) (min_le_left 50 _)

/-- C3: `build` fails with `InsufficientDataError` iff the player has zero
PlayerStat rows strictly before the game date; and every successful feature
vector carries the rolling mean, (squared) deviation statistic and sample
size computed over exactly the `min 5 n` most recent prior rows — a window
`w` that is part of a permutation of the prior rows in which everything
outside `w` is dated no later than everything in `w` — never padded to 5. -/
theorem c3_rolling_window_stats (stats : List PlayerStat) (ratings : List (String × ℚ))
    (mv : ModelVersion) (pid gameDate : Nat) (opp : String) (isHome : Bool) :
    (build stats ratings mv pid gameDate opp isHome = .error .insufficientData ↔
      (stats.filter fun r => r.playerId = pid ∧ r.gameDate < gameDate).length = 0) ∧
    (∀ fv, build stats ratings mv pid gameDate opp isHome = .ok fv →
      ∃ w rest,
        (stats.filter fun r => r.playerId = pid ∧ r.gameDate < gameDate).Perm (w ++ rest) ∧
        w.length = min 5 (stats.filter fun r => r.playerId = pid ∧ r.gameDate < gameDate).length ∧
        (∀ x ∈ w, ∀ y ∈ rest, y.gameDate ≤ x.gameDate) ∧
        fv.get? 0 = some ((w.map (·.points)).sum / (w.length : ℚ)) ∧
        fv.get? 1 = some ((w.map fun x =>
          (x.points - (w.map (·.points)).sum / (w.length : ℚ)) ^ 2).sum / (w.length : ℚ)) ∧
        fv.get? 2 = some ((w.length : ℚ))) := by
  set filt := stats.filter fun r => r.playerId = pid ∧ r.gameDate < gameDate with hfilt
  have hperm : (priorStats stats pid gameDate).Perm filt := by
    simpa [priorStats, hfilt] using
      List.perm_insertionSort statDateDesc
        (stats.filter fun r => r.playerId = pid ∧ r.gameDate < gameDate)
  have hsorted : List.Sorted statDateDesc (priorStats stats pid gameDate) := by
    simpa [priorStats] using
      List.sorted_insertionSort statDateDesc
        (stats.filter fun r => r.playerId = pid ∧ r.gameDate < gameDate)
  constructor
  · constructor
    · intro hb
      by_contra hne
      have hpri : priorStats stats pid gameDate ≠ [] := by
        intro h0
        have := hperm.length_eq
        rw [h0] at this
        exact hne this.symm
      cases hw : rollingWindow stats pid gameDate with
      | nil =>
        rcases List.take_eq_nil_iff.mp hw with h5 | hnil
        · norm_num at h5
        · exact hpri hnil
      | cons r rest =>
        unfold build featuresOf at hb
        rw [hw] at hb
        by_cases hcols : builderColumns = mv.featureColumns
        · simp only [Except.bind, if_pos hcols] at hb
          exact Except.noConfusion hb
        · simp only [Except.bind, if_neg hcols] at hb
          exact BuildError.noConfusion (Except.error.inj hb)
    · intro h0
      have hpri : priorStats stats pid gameDate = [] := by
        have := hperm.length_eq
        rw [h0] at this
        exact List.length_eq_zero.mp this
      unfold build featuresOf rollingWindow
      rw [hpri]
      rfl
  · intro fv hb
    cases hw : rollingWindow stats pid gameDate with
    | nil =>
      unfold build featuresOf at hb
      rw [hw] at hb
      exact absurd hb (by simp [Except.bind])
    | cons r rest =>
      unfold build featuresOf at hb
      rw [hw] at hb
      by_cases hcols : builderColumns = mv.featureColumns
      · simp only [Except.bind, if_pos hcols, Except.ok.injEq] at hb
        have hw' : (priorStats stats pid gameDate).take 5 = r :: rest := hw
        refine ⟨(priorStats stats pid gameDate).take 5,
          (priorStats stats pid gameDate).drop 5, ?_, ?_, ?_, ?_, ?_, ?_⟩
        · rw [List.take_append_drop]
          exact hperm.symm
        · rw [List.length_take, hperm.length_eq]
        · have hsp : List.Pairwise statDateDesc
              ((priorStats stats pid gameDate).take 5 ++
                (priorStats stats pid gameDate).drop 5) := by
            rw [List.take_append_drop]
            exact hsorted
          exact fun x hx y hy => (List.pairwise_append.mp hsp).2.2 x hx y hy
        · rw [hw', ← hb]; rfl
        · rw [hw', ← hb]; rfl
        · rw [hw', ← hb]; rfl
      · simp only [Except.bind, if_neg hcols] at hb
        exact Except.noConfusion hb

theorem c3_rolling_window_stats_witness :
    ∃ w rest,
      (c3Stats.filter fun r => r.playerId = 7 ∧ r.gameDate < 5).Perm (w ++ rest) ∧
      w.length = min 5 (c3Stats.filter fun r => r.playerId = 7 ∧ r.gameDate < 5).length ∧
      (∀ x ∈ w, ∀ y ∈ rest, y.gameDate ≤ x.gameDate) ∧
      ([15, 25, 2, 110, 3, 1] : List ℚ).get? 0 = some ((w.map (·.points)).sum / (w.length : ℚ)) ∧
      ([15, 25, 2, 110, 3, 1] : List ℚ).get? 1 = some ((w.map fun x =>
        (x.points - (w.map (·.points)).sum / (w.length : ℚ)) ^ 2).sum / (w.length : ℚ)) ∧
      ([15, 25, 2, 110, 3, 1] : List ℚ).get? 2 = some ((w.length : ℚ)) :=
  (c3_rolling_window_stats c3Stats [] cwModel 7 5 "BOS" true).2 [15, 25, 2, 110, 3, 1] (by
    simp only [build, featuresOf, rollingWindow, priorStats, statDateDesc, oppDefRating,
      leagueAvgRating, featureValues, builderColumns, cwModel, c3Stats,
      List.insertionSort, List.orderedInsert, Except.bind, List.filter]
    norm_num)

/-- C4: every vector `build` returns has exactly the length and column
order of the active ModelVersion's `feature_columns`; and when the builder's
fixed output columns mismatch `feature_columns`, `build` never succeeds —
when prior data exists it fails with `FeatureSchemaMismatchError` instead of
reordering or coercing. -/
theorem c4_feature_schema_check (stats : List PlayerStat) (ratings : List (String × ℚ))
    (mv : ModelVersion) (pid gameDate : Nat) (opp : String) (isHome : Bool) :
    (∀ fv, build stats ratings mv pid gameDate opp isHome = .ok fv →
      builderColumns = mv.featureColumns ∧ fv.length = mv.featureColumns.length) ∧
    (builderColumns ≠ mv.featureColumns →
      ∀ fv, build stats ratings mv pid gameDate opp isHome ≠ .ok fv) ∧
    (builderColumns ≠ mv.featureColumns →
      (stats.filter fun r => r.playerId = pid ∧ r.gameDate < gameDate) ≠ [] →
      build stats ratings mv pid gameDate opp isHome = .error .schemaMismatch) := by
  have part1 : ∀ fv, build stats ratings mv pid gameDate opp isHome = .ok fv →
      builderColumns = mv.featureColumns ∧ fv.length = mv.featureColumns.length := by
    intro fv hb
    unfold build at hb
    cases hf : featuresOf stats ratings pid gameDate opp isHome with
    | error e =>
      rw [hf] at hb
      exact Except.noConfusion hb
    | ok fs =>
      rw [hf] at hb
      by_cases hcols : builderColumns = mv.featureColumns
      · simp only [Except.bind, if_pos hcols, Except.ok.injEq] at hb
        refine ⟨hcols, ?_⟩
        rw [← hb, ← hcols]
        rfl
      · simp only [Except.bind, if_neg hcols] at hb
        exact Except.noConfusion hb
  refine ⟨part1, fun hne fv hb => hne (part1 fv hb).1, ?_⟩
  intro hne hfne
  have hperm : (priorStats stats pid gameDate).Perm
      (stats.filter fun r => r.playerId = pid ∧ r.gameDate < gameDate) :=
    List.perm_insertionSort statDateDesc _
  have hpri : priorStats stats pid gameDate ≠ [] := by
    intro h0
    rw [h0] at hperm
    exact hfne hperm.symm.eq_nil
  cases hw : rollingWindow stats pid gameDate with
  | nil =>
    rcases List.take_eq_nil_iff.mp hw with h5 | hnil
    · norm_num at h5
    · exact absurd hnil hpri
  | cons r rest =>
    unfold build featuresOf
    rw [hw]
    simp only [Except.bind, if_neg hne]

theorem c4_feature_schema_check_witness :
    builderColumns ≠ c4Model.featureColumns ∧
    build c3Stats [] c4Model 7 5 "BOS" true = .error .schemaMismatch :=
  ⟨by decide, (c4_feature_schema_check c3Stats [] c4Model 7 5 "BOS" true).2.2
    (by decide) (by decide)⟩

/-- C5: for a `READY` key with no force flag, `get_or_generate` is a pure
cache hit: it returns the stored Prediction, leaves the store unchanged,
performs zero builder/predictor invocations, and a second call returns the
bit-identical triple. -/
theorem c5_get_or_generate_idempotent (s : Store) (pid d now now2 : Nat)
    (pl : PropLine) (pred : Prediction)
    (hpl : findPropLine s pid d = some pl)
    (hpred : findPrediction s.predictions pl.id = some pred) :
    getOrGenerate s pid d false now = (.ok pred, s, 0) ∧
    getOrGenerate (getOrGenerate s pid d false now).2.1 pid d false now2 =
      (.ok pred, s, 0) := by
  have h1 : getOrGenerate s pid d false now = (.ok pred, s, 0) := by
    simp only [getOrGenerate, hpl, hpred]
  refine ⟨h1, ?_⟩
  rw [h1]
  simp only [getOrGenerate, hpl, hpred]

theorem c5_get_or_generate_idempotent_witness :
    getOrGenerate c5Store 7 5 false 10 = (.ok c5Pred, c5Store, 0) ∧
    getOrGenerate (getOrGenerate c5Store 7 5 false 10).2.1 7 5 false 11 =
      (.ok c5Pred, c5Store, 0) :=
  c5_get_or_generate_idempotent c5Store 7 5 10 11 c5Line c5Pred rfl rfl

/-- C6: the listing endpoint's rows are sorted by `prob_over` descending
(each row carrying the documented `PropResponse` fields), and when no
predictions exist for the date the orchestrator is invoked for exactly the
PropLines of that date before the response is produced (and for none
otherwise). -/
theorem c6_list_props_sorted_and_generates (s : Store) (d now : Nat) :
    List.Sorted probDesc (listProps s d now).1 ∧
    (predictionsOn s d = [] → (listProps s d now).2 = propLinesOn s d) ∧
    (predictionsOn s d ≠ [] → (listProps s d now).2 = []) := by
  refine ⟨?_, ?_, ?_⟩
  · unfold listProps
    split_ifs with hemp
    · exact List.sorted_insertionSort probDesc _
    · exact List.sorted_insertionSort probDesc _
  · intro hemp
    unfold listProps
    rw [if_pos hemp]
  · intro hne
    unfold listProps
    rw [if_neg hne]

theorem c6_list_props_sorted_and_generates_witness :
    List.Sorted probDesc (listProps c6Store 5 0).1 ∧
    (listProps c6Store 5 0).2 = propLinesOn c6Store 5 :=
  ⟨(c6_list_props_sorted_and_generates c6Store 5 0).1,
    (c6_list_props_sorted_and_generates c6Store 5 0).2.1 rfl⟩

/-- C7: for any route whose hourly budget is 100, from a fresh window the
first 100 requests for a client succeed and the 101st is rejected — not
queued — with `remaining = 0` and the window's reset time; and an admitRequest for
one `(client, route)` pair never changes any other pair's counter. -/
theorem c7_rate_limit_budget (r : Route) (h : budgetOf r = 100) (c : String) (t : Nat) :
    (∀ k, k < 100 → (admitRequest (stateAfter c r t k) c r t).1.allowed = true) ∧
    (admitRequest (stateAfter c r t 100) c r t).1.allowed = false ∧
    (admitRequest (stateAfter c r t 100) c r t).1.remaining = 0 ∧
    (admitRequest (stateAfter c r t 100) c r t).1.resetAt = t + windowLen ∧
    (∀ (st : GovState) (c' : String) (r' : Route) (now : Nat), (c', r') ≠ (c, r) →
      lookupCounter (admitRequest st c r now).2 c' r' = lookupCounter st c' r') := by
  have h100 : (100 : Nat) ≤ budgetOf r := by rw [h]
  have hcnt100 : lookupCounter (stateAfter c r t 100) c r = some (t, 100) := by
    rw [counter_stateAfter c r t 100 h100]
    norm_num
  refine ⟨?_, ?_, ?_, ?_, ?_⟩
  · intro k hk
    have hkle : k ≤ budgetOf r := by rw [h]; exact Nat.le_of_lt hk
    have hcnt := counter_stateAfter c r t k hkle
    by_cases h0 : k = 0
    · subst h0
      rw [if_pos rfl] at hcnt
      simp only [admitRequest, hcnt]
      rw [if_pos (show 0 < budgetOf r from by rw [h]; norm_num)]
    · rw [if_neg h0] at hcnt
      simp only [admitRequest, hcnt]
      rw [if_pos (Nat.lt_add_of_pos_right (by decide : 0 < windowLen))]
      rw [if_pos (show k < budgetOf r from by rw [h]; exact hk)]
  · simp only [admitRequest, hcnt100]
    rw [if_pos (Nat.lt_add_of_pos_right (by decide : 0 < windowLen))]
    rw [if_neg (show ¬(100 < budgetOf r) from by rw [h]; norm_num)]
  · simp only [admitRequest, hcnt100]
    rw [if_pos (Nat.lt_add_of_pos_right (by decide : 0 < windowLen))]
    rw [if_neg (show ¬(100 < budgetOf r) from by rw [h]; norm_num)]
  · simp only [admitRequest, hcnt100]
    rw [if_pos (Nat.lt_add_of_pos_right (by decide : 0 < windowLen))]
    rw [if_neg (show ¬(100 < budgetOf r) from by rw [h]; norm_num)]
  · intro st c' r' now hne
    cases hl : lookupCounter st c r with
    | none =>
      simp only [admitRequest, hl]
      split_ifs
      · exact lookupCounter_setCounter_ne st c r _ c' r' hne
      · rfl
    | some wc =>
      simp only [admitRequest, hl]
      split_ifs
      · exact lookupCounter_setCounter_ne st c r _ c' r' hne
      · rfl
      · exact lookupCounter_setCounter_ne st c r _ c' r' hne
      · rfl

theorem c7_rate_limit_budget_witness :
    (∀ k, k < 100 →
      (admitRequest (stateAfter "client" Route.listing 0 k) "client" Route.listing 0).1.allowed = true) ∧
    (admitRequest (stateAfter "client" Route.listing 0 100) "client" Route.listing 0).1.allowed = false ∧
    (admitRequest (stateAfter "client" Route.listing 0 100) "client" Route.listing 0).1.remaining = 0 ∧
    (admitRequest (stateAfter "client" Route.listing 0 100) "client" Route.listing 0).1.resetAt =
      0 + windowLen ∧
    (∀ (st : GovState) (c' : String) (r' : Route) (now : Nat),
      (c', r') ≠ ("client", Route.listing) →
      lookupCounter (admitRequest st "client" Route.listing now).2 c' r' = lookupCounter st c' r') :=
  c7_rate_limit_budget Route.listing rfl "client" 0

/-- C8: player lookup depends only on the normalized (lowercased,
whitespace-collapsed) query, so `"  lebron  james "` resolves exactly like
`"LeBron James"`; it fails with `PlayerNotFoundError` iff no stored player
is within the fuzzy threshold; any returned player is a stored player within
the threshold whose `(distance, name)` key is minimal among all matches
(closest distance wins, then alphabetical); and when an exact normalized
match exists the returned player is at distance 0 (exact beats fuzzy). -/
theorem c8_fuzzy_player_lookup :
    (∀ (players : List Player) (q1 q2 : String), normalizeName q1 = normalizeName q2 →
      resolvePlayer players q1 = resolvePlayer players q2) ∧
    (normalizeName "  lebron  james " = normalizeName "LeBron James") ∧
    (∀ (players : List Player) (q : String),
      resolvePlayer players q = .error .playerNotFound ↔
        ∀ p ∈ players, fuzzyThreshold < nameDist (normalizeName q) (normalizeName p.fullName)) ∧
    (∀ (players : List Player) (q : String) (p : Player), resolvePlayer players q = .ok p →
      p ∈ players ∧
      nameDist (normalizeName q) (normalizeName p.fullName) ≤ fuzzyThreshold ∧
      ∀ p2 ∈ playerMatches players (normalizeName q),
        lookupKey (normalizeName q) p ≤ lookupKey (normalizeName q) p2) ∧
    (∀ (players : List Player) (q : String) (p : Player), resolvePlayer players q = .ok p →
      (∃ e ∈ players, normalizeName e.fullName = normalizeName q) →
      nameDist (normalizeName q) (normalizeName p.fullName) = 0) := by
  have hok : ∀ (players : List Player) (q : String) (p : Player),
      resolvePlayer players q = .ok p →
      (playerMatches players (normalizeName q)).argmin (lookupKey (normalizeName q)) =
        some p := by
    intro players q p hr
    unfold resolvePlayer at hr
    cases harg : (playerMatches players (normalizeName q)).argmin (lookupKey (normalizeName q)) with
    | none =>
      rw [harg] at hr
      exact Except.noConfusion hr
    | some p2 =>
      rw [harg] at hr
      simp only [Except.ok.injEq] at hr
      rw [hr]
  have hmain4 : ∀ (players : List Player) (q : String) (p : Player),
      resolvePlayer players q = .ok p →
      p ∈ players ∧
      nameDist (normalizeName q) (normalizeName p.fullName) ≤ fuzzyThreshold ∧
      ∀ p2 ∈ playerMatches players (normalizeName q),
        lookupKey (normalizeName q) p ≤ lookupKey (normalizeName q) p2 := by
    intro players q p hr
    have harg := hok players q p hr
    have hmemopt : p ∈ (playerMatches players (normalizeName q)).argmin
        (lookupKey (normalizeName q)) := by
      rw [harg]
      rfl
    have hmem : p ∈ playerMatches players (normalizeName q) := List.argmin_mem hmemopt
    have hfil := List.mem_filter.mp hmem
    refine ⟨hfil.1, by simpa using hfil.2, ?_⟩
    intro p2 hp2
    exact List.le_of_mem_argmin hp2 hmemopt
  refine ⟨?_, by decide, ?_, hmain4, ?_⟩
  · intro players q1 q2 h
    unfold resolvePlayer
    rw [h]
  · intro players q
    constructor
    · intro hr
      cases harg : (playerMatches players (normalizeName q)).argmin
          (lookupKey (normalizeName q)) with
      | some p2 =>
        unfold resolvePlayer at hr
        rw [harg] at hr
        exact Except.noConfusion hr
      | none =>
        have hnil : playerMatches players (normalizeName q) = [] :=
          List.argmin_eq_none.mp harg
        intro p hp
        have := List.filter_eq_nil_iff.mp hnil p hp
        simpa using this
    · intro hall
      have hnil : playerMatches players (normalizeName q) = [] := by
        unfold playerMatches
        rw [List.filter_eq_nil_iff]
        intro p hp
        simpa using Nat.not_le.mpr (hall p hp)
      unfold resolvePlayer
      rw [hnil]
      rfl
  · intro players q p hr hex
    obtain ⟨e, hemem, hnorm⟩ := hex
    have hde : nameDist (normalizeName q) (normalizeName e.fullName) = 0 := by
      unfold nameDist
      rw [hnorm]
      exact levenshtein_self_eq_zero _
    have hematch : e ∈ playerMatches players (normalizeName q) := by
      unfold playerMatches
      rw [List.mem_filter]
      refine ⟨hemem, ?_⟩
      simp [hde, fuzzyThreshold]
    have hmin := (hmain4 players q p hr).2.2 e hematch
    unfold lookupKey at hmin
    rw [Prod.Lex.le_iff] at hmin
    rcases hmin with hlt | ⟨heq, -⟩
    · rw [hde] at hlt
      exact absurd hlt (Nat.not_lt_zero _)
    · rw [hde] at heq
      exact heq

set_option maxRecDepth 10000 in
theorem c8_fuzzy_player_lookup_witness :
    normalizeName "  lebron  james " = normalizeName "LeBron James" ∧
    resolvePlayer c8Players "  lebron  james " = resolvePlayer c8Players "LeBron James" ∧
    (c8Lebron ∈ c8Players ∧
      nameDist (normalizeName "LeBron James") (normalizeName c8Lebron.fullName) ≤
        fuzzyThreshold ∧
      ∀ p2 ∈ playerMatches c8Players (normalizeName "LeBron James"),
        lookupKey (normalizeName "LeBron James") c8Lebron ≤
          lookupKey (normalizeName "LeBron James") p2) ∧
    nameDist (normalizeName "LeBron James") (normalizeName c8Lebron.fullName) = 0 := by
  have hnorm : normalizeName "  lebron  james " = normalizeName "LeBron James" := by decide
  have harg : (playerMatches c8Players (normalizeName "LeBron James")).argmin
      (lookupKey (normalizeName "LeBron James")) = some c8Lebron := by decide
  have hres : resolvePlayer c8Players "LeBron James" = .ok c8Lebron := by
    unfold resolvePlayer
    rw [harg]
  exact ⟨hnorm, c8_fuzzy_player_lookup.1 c8Players _ _ hnorm,
    c8_fuzzy_player_lookup.2.2.2.1 c8Players "LeBron James" c8Lebron hres,
    c8_fuzzy_player_lookup.2.2.2.2 c8Players "LeBron James" c8Lebron hres
      ⟨c8Lebron, by decide, by decide⟩⟩

theorem c9_fetch_failure_renders_mock_witness :
    (fetchProps (.httpError 404)).error = none ∧
    (fetchProps (.httpError 404)).props = mockDataHttp ∧
    (fetchProps .networkError).error = none ∧
    (fetchProps .networkError).props = mockDataNetwork ∧
    mockDataHttp = mockDataNetwork ∧
    mockDataHttp.length = 5 ∧
    renderHome (fetchProps (.httpError 404)) = .table mockDataHttp ∧
    renderHome (fetchProps .networkError) = .table mockDataHttp ∧
    (∀ msg, renderHome (fetchProps (.httpError 404)) ≠ .errorView msg) ∧
    (∀ msg, renderHome (fetchProps .networkError) ≠ .errorView msg) :=
  c9_fetch_failure_renders_mock 404

theorem c10_duplicated_helpers_agree_witness :
    homeFormatProbability 0.72 = playerFormatProbability 0.72 ∧
    homeGetProbabilityBadgeClass 0.72 = playerGetProbabilityBadgeClass 0.72 ∧
    (homeGetProbabilityBadgeClass 0.72 = "bg-emerald-100 text-emerald-800 border-emerald-500" ↔
      (0.7:ℚ) ≤ 0.72) ∧
    (homeGetProbabilityBadgeClass 0.72 = "bg-amber-100 text-amber-800 border-amber-500" ↔
      (0.5:ℚ) ≤ 0.72 ∧ (0.72:ℚ) < 0.7) ∧
    (homeGetProbabilityBadgeClass 0.72 = "bg-rose-100 text-rose-800 border-rose-500" ↔
      (0.72:ℚ) < 0.5) :=
  c10_duplicated_helpers_agree 0.72

end SportsBetAI
